import Mathlib

/-!
Verification of the ImGuiScaling library (ImGuiScaling.hpp / ImGuiScaling.cpp).

Shallow embedding conventions:
* C++ `float` values are modelled as exact rationals (`ℚ`).  Every branch of the
  library's control flow is driven only by order/equality comparisons and
  assignment, which the rational model performs exactly.
* The per-widget `Scalable` mixin state is the record of its two fields
  `m_scale` and `m_prevScale`; the virtual `OnScaleChanged` hook is modelled by
  returning the number of times it fires.
* The process-wide state (`g_userScale`, `g_settingsHandlerRegistered`, and the
  host toolkit's handler list / ini-dirty flag) is a `GlobalState` record that
  is threaded explicitly.  The host-toolkit pieces (`ImGui::GetCurrentContext`,
  `ImGui::MarkIniSettingsDirty`, `ctx->SettingsHandlers`, `ImHashStr`) live
  outside this repository; they are modelled from the spec as a
  `hasCtx : Bool` input, a dirty flag, and a list of handler records (with the
  hash stood in for by the hashed string itself).
* `sscanf(line, "UserScale=%f", ...)` is modelled by an executable parser for
  the decimal subject sequence of `%f`: the literal prefix must match exactly,
  then `%f` skips leading whitespace and reads an optionally signed decimal
  mantissa with optional exponent.  (Hex, `inf` and `nan` subject sequences are
  outside the model.)
* `printf`-style `%.3f` formatting is modelled by rounding `q * 1000` to an
  integer and printing with three fractional digits; all scales of interest
  here are exactly representable, so no tie-breaking subtleties arise.
-/

namespace ImGuiScaling

/-- Source struct `ScaleConfig` from ImGuiScaling.hpp: two factors, both
defaulting to `1.0f`. -/
structure ScaleConfig where
  dpiScale : ℚ := 1
  userScale : ℚ := 1

/-- Default-constructed `ScaleConfig` (member initializers only). -/
def ScaleConfig.defaultConfig : ScaleConfig := {}

/-- Source `ScaleConfig::GetEffectiveScale`: `return dpiScale * userScale;`. -/
def ScaleConfig.GetEffectiveScale (c : ScaleConfig) : ℚ := c.dpiScale * c.userScale

/-- Source `ScaleConfig::FromEffective`: sets `dpiScale = 1.0f` and
`userScale = effective`. -/
def ScaleConfig.FromEffective (effective : ℚ) : ScaleConfig :=
  { dpiScale := 1, userScale := effective }

/-- Source `ScaleConfig::Create`: stores both arguments verbatim. -/
def ScaleConfig.Create (dpi user : ℚ) : ScaleConfig :=
  { dpiScale := dpi, userScale := user }

/-- Private state of the `Scalable` mixin: `m_scale = 1.0f`,
`m_prevScale = 1.0f`. -/
structure Scalable where
  m_scale : ℚ := 1
  m_prevScale : ℚ := 1

/-- Freshly constructed `Scalable` (member initializers only). -/
def Scalable.init : Scalable := {}

/-- Source `Scalable::SetScale`: if `scale > 0.0f && scale != m_scale` then
record the old scale in `m_prevScale`, store the new one, and call
`OnScaleChanged()`.  The second component counts how many times the hook
fires (0 or 1). -/
def Scalable.SetScale (s : Scalable) (scale : ℚ) : Scalable × Nat :=
  if scale > 0 ∧ scale ≠ s.m_scale then
    ({ m_scale := scale, m_prevScale := s.m_scale }, 1)
  else
    (s, 0)

/-- Source `Scalable::GetScale`: `return m_scale;`. -/
def Scalable.GetScale (s : Scalable) : ℚ := s.m_scale

/-- Source `Scalable::HasScaleChanged`: `return m_scale != m_prevScale;`. -/
def Scalable.HasScaleChanged (s : Scalable) : Bool :=
  decide (s.m_scale ≠ s.m_prevScale)

/-- Source `Scalable::AcknowledgeScaleChange`: `m_prevScale = m_scale;`. -/
def Scalable.AcknowledgeScaleChange (s : Scalable) : Scalable :=
  { s with m_prevScale := s.m_scale }

/-- Source `Scalable::Scaled`: `return value * m_scale;`. -/
def Scalable.Scaled (s : Scalable) (value : ℚ) : ℚ := value * s.m_scale

/-- Source `Scalable::ScaledTouch`:
`return (touchMode ? touchValue : desktopValue) * m_scale;`. -/
def Scalable.ScaledTouch (s : Scalable) (desktopValue touchValue : ℚ) (touchMode : Bool) : ℚ :=
  (if touchMode then touchValue else desktopValue) * s.m_scale

/-- Free function `Scale` from ImGuiScaling.hpp: `return v * scale;`. -/
def Scale (v scale : ℚ) : ℚ := v * scale

/-- Mutating operations a client can apply to a `Scalable`. -/
inductive ScalableOp where
  | set (scale : ℚ)
  | ack

/-- One step of a `Scalable` trace (the hook count is discarded). -/
def Scalable.step (s : Scalable) : ScalableOp → Scalable
  | .set q => (s.SetScale q).1
  | .ack => s.AcknowledgeScaleChange

/-- Run a sequence of operations from a freshly constructed `Scalable`. -/
def runScalable (ops : List ScalableOp) : Scalable :=
  ops.foldl Scalable.step Scalable.init

/-- Trace bookkeeping for the `Scalable` state machine: alongside the source
state it tracks the scale value at the most recent `AcknowledgeScaleChange`
(initially `1`) and how many effective `SetScale` calls happened since then. -/
def estep (p : Scalable × ℚ × Nat) (op : ScalableOp) : Scalable × ℚ × Nat :=
  match op with
  | .set q =>
      ((p.1.SetScale q).1, p.2.1,
        if q > 0 ∧ q ≠ p.1.m_scale then p.2.2 + 1 else p.2.2)
  | .ack => (p.1.AcknowledgeScaleChange, p.1.m_scale, 0)

/-- Run the instrumented trace from a fresh `Scalable`. -/
def effTrace (ops : List ScalableOp) : Scalable × ℚ × Nat :=
  ops.foldl estep (Scalable.init, 1, 0)

/-- Scale value at the most recent acknowledgement (initial value `1` if none
has occurred). -/
def lastAckScale (ops : List ScalableOp) : ℚ := (effTrace ops).2.1

/-- Number of effective `SetScale` calls since the most recent
acknowledgement (or since construction). -/
def effSetsSinceAck (ops : List ScalableOp) : Nat := (effTrace ops).2.2

/-- Invariant tying the instrumented trace to the source state: with zero
effective sets since the last acknowledgement the state is synchronized with
the acknowledged value; with exactly one, `m_prevScale` holds the acknowledged
value and `m_scale` differs from it. -/
def EffInv (p : Scalable × ℚ × Nat) : Prop :=
  (p.2.2 = 0 → p.1.m_prevScale = p.1.m_scale ∧ p.1.m_scale = p.2.1) ∧
  (p.2.2 = 1 → p.1.m_prevScale = p.2.1 ∧ p.1.m_scale ≠ p.2.1)

/-- Whitespace as classified by C `isspace`, which `sscanf`'s `%f` skips. -/
def isSpace (c : Char) : Bool :=
  c == ' ' || c == '\t' || c == '\n' || c == '\x0b' || c == '\x0c' || c == '\r'

/-- Numeric value of a decimal digit character. -/
def digToNat (c : Char) : ℕ := c.toNat - 48

/-- Value of a list of decimal digit characters, most significant first. -/
def digitsToNat (ds : List Char) : ℕ := ds.foldl (fun a c => 10 * a + digToNat c) 0

/-- Match a literal character sequence at the head of the input, returning the
remainder on success (the literal-prefix part of `sscanf` format matching). -/
def matchLit : List Char → List Char → Option (List Char)
  | [], cs => some cs
  | _ :: _, [] => none
  | l :: ls, c :: cs => if c = l then matchLit ls cs else none

/-- Integer power of ten as a rational. -/
def pow10 (e : ℤ) : ℚ :=
  if 0 ≤ e then ((10 : ℚ)) ^ e.toNat else 1 / ((10 : ℚ)) ^ (-e).toNat

/-- Optional sign at the head of a numeric token. -/
def parseSign (cs : List Char) : ℚ × List Char :=
  match cs with
  | '+' :: t => (1, t)
  | '-' :: t => (-1, t)
  | t => (1, t)

/-- Optional exponent part `e[±]digits` of a `%f` subject sequence; an `e`
with no digits after it is not consumed (contributing exponent `0`). -/
def parseExpPart (cs : List Char) : ℤ :=
  match cs with
  | 'e' :: rest | 'E' :: rest =>
      let sr : ℤ × List Char :=
        match rest with
        | '+' :: t => (1, t)
        | '-' :: t => (-1, t)
        | t => (1, t)
      let ds := sr.2.takeWhile Char.isDigit
      if ds.isEmpty then 0 else sr.1 * (digitsToNat ds : ℤ)
  | _ => 0

/-- Decimal subject sequence of `sscanf`'s `%f` (no leading-whitespace skip
here; the caller performs it): optional sign, digits with optional decimal
point (at least one digit overall), optional exponent. -/
def floatTok (cs : List Char) : Option ℚ :=
  let sc := parseSign cs
  let ip := sc.2.takeWhile Char.isDigit
  let cs2 := sc.2.dropWhile Char.isDigit
  let fr : List Char × List Char :=
    match cs2 with
    | '.' :: t => (t.takeWhile Char.isDigit, t.dropWhile Char.isDigit)
    | _ => ([], cs2)
  if ip.isEmpty && fr.1.isEmpty then none
  else
    some (sc.1 * ((digitsToNat ip : ℚ) + (digitsToNat fr.1 : ℚ) / pow10 (fr.1.length : ℤ))
      * pow10 (parseExpPart fr.2))

/-- Model of `sscanf(line, "UserScale=%f", &scale) == 1`: the literal
`UserScale=` must match at the start of the line, then `%f` skips whitespace
and reads a float subject sequence. -/
def scanUserScale (cs : List Char) : Option ℚ :=
  match matchLit "UserScale=".data cs with
  | none => none
  | some rest => floatTok (rest.dropWhile isSpace)

/-- Modelled from the spec: the host toolkit's settings-handler record
(`ImGuiSettingsHandler`: type name, type hash, and the three callback slots
used by this library).  `ImHashStr` is host-toolkit code not in this
repository; the hash field holds the hashed string itself as a stand-in. -/
structure SettingsHandlerRec where
  TypeName : String
  TypeHash : String
  ReadOpenFn : String → Bool
  ReadLineFn : ℚ → Bool → String → ℚ
  WriteAllFn : String → ℚ → String

/-- Process-wide state: the library's globals `g_userScale = 1.0f` and
`g_settingsHandlerRegistered = false`, plus (modelled from the spec) the host
toolkit's ini-dirty flag and its installed settings-handler list. -/
structure GlobalState where
  g_userScale : ℚ := 1
  g_settingsHandlerRegistered : Bool := false
  iniSettingsDirty : Bool := false
  settingsHandlers : List SettingsHandlerRec := []

/-- Process start: globals hold their static initializers. -/
def GlobalState.init : GlobalState := {}

/-- Source `GetUserScale`: `return g_userScale;`. -/
def GetUserScale (st : GlobalState) : ℚ := st.g_userScale

/-- Source `SetUserScale`: if `scale > 0.0f`, store it and (when an active
context exists) mark the ini settings dirty.  The context check
`ImGui::GetCurrentContext()` is modelled by the `hasCtx` input. -/
def SetUserScale (hasCtx : Bool) (scale : ℚ) (st : GlobalState) : GlobalState :=
  if scale > 0 then
    { st with
        g_userScale := scale,
        iniSettingsDirty := if hasCtx then true else st.iniSettingsDirty }
  else st

/-- Source `SettingsHandler_ReadOpen`: returns a non-null token exactly when
`strcmp(name, "Data") == 0`; `true` models the non-null `(void*)1`. -/
def SettingsHandler_ReadOpen (name : String) : Bool := decide (name = "Data")

/-- Effect of source `SettingsHandler_ReadLine` on `g_userScale`: return
immediately if the entry token is null; otherwise parse `UserScale=%f` and
store the value if it lies in `(0, 10]`. -/
def readLineScale (g : ℚ) (entry : Bool) (line : String) : ℚ :=
  if entry = false then g
  else
    match scanUserScale line.data with
    | some scale => if scale > 0 ∧ scale ≤ 10 then scale else g
    | none => g

/-- Source `SettingsHandler_ReadLine` as a transition on the process state. -/
def SettingsHandler_ReadLine (st : GlobalState) (entry : Bool) (line : String) : GlobalState :=
  { st with g_userScale := readLineScale st.g_userScale entry line }

/-- Three-or-more-digit rendering of the fractional part for `%.3f`. -/
def pad3 (n : ℕ) : String :=
  if n < 10 then "00" ++ toString n
  else if n < 100 then "0" ++ toString n
  else toString n

/-- Model of `%.3f` formatting: round `q * 1000` to an integer and print with
three fractional digits (used here only on nonnegative scales that are exactly
representable, where no rounding ties arise). -/
def fmt3 (q : ℚ) : String :=
  toString (round (q * 1000) / 1000 : ℤ) ++ "." ++ pad3 (round (q * 1000) % 1000).toNat

/-- Source `SettingsHandler_WriteAll`: emits
`[<TypeName>][Data]\n`, then `UserScale=<%.3f>\n`, then `\n`. -/
def SettingsHandler_WriteAll (typeName : String) (g : ℚ) : String :=
  "[" ++ typeName ++ "][Data]\n" ++ ("UserScale=" ++ fmt3 g ++ "\n") ++ "\n"

/-- Handler record constructed by source `RegisterSettingsHandler`. -/
def scalingHandler : SettingsHandlerRec :=
  { TypeName := "ImGuiScaling"
    TypeHash := "ImGuiScaling"
    ReadOpenFn := SettingsHandler_ReadOpen
    ReadLineFn := readLineScale
    WriteAllFn := SettingsHandler_WriteAll }

/-- Source `RegisterSettingsHandler`: no-op if already registered or if no
active context exists; otherwise push the handler record and set the flag. -/
def RegisterSettingsHandler (hasCtx : Bool) (st : GlobalState) : GlobalState :=
  if st.g_settingsHandlerRegistered then st
  else if hasCtx = false then st
  else
    { st with
        settingsHandlers := st.settingsHandlers ++ [scalingHandler],
        g_settingsHandlerRegistered := true }

/-- Operations that can mutate the global user scale. -/
inductive UserScaleOp where
  | setUser (hasCtx : Bool) (scale : ℚ)
  | readLine (entry : Bool) (line : String)

/-- One step of the process-state trace. -/
def gstep (st : GlobalState) : UserScaleOp → GlobalState
  | .setUser c q => SetUserScale c q st
  | .readLine e l => SettingsHandler_ReadLine st e l

/-- Run a sequence of user-scale operations from process start. -/
def runGlobal (ops : List UserScaleOp) : GlobalState :=
  ops.foldl gstep GlobalState.init

/-- Modelled from the spec (claim wording): the line pattern "the exact ASCII
text `UserScale=` immediately followed by a parseable floating-point number" —
no whitespace is allowed between `=` and the number. -/
def specLineParse (cs : List Char) : Option ℚ :=
  match matchLit "UserScale=".data cs with
  | none => none
  | some rest => floatTok rest

/-- Modelled from the spec as amended: `UserScale=` followed by optional
whitespace and then a parseable floating-point number (the whitespace skip
performed by `sscanf`'s `%f`). -/
def specLineParseWs (cs : List Char) : Option ℚ :=
  match matchLit "UserScale=".data cs with
  | none => none
  | some rest => floatTok (rest.dropWhile isSpace)

/-- Update demanded by the spec's read-line contract, given the parse result:
overwrite on an in-range parsed value, otherwise leave the state intact. -/
def applyParse (g : ℚ) : Option ℚ → ℚ
  | some v => if v > 0 ∧ v ≤ 10 then v else g
  | none => g

lemma estep_fst (p : Scalable × ℚ × Nat) (op : ScalableOp) :
    (estep p op).1 = p.1.step op := by
  cases op <;> rfl

lemma foldl_estep_fst (ops : List ScalableOp) (p : Scalable × ℚ × Nat) :
    (ops.foldl estep p).1 = ops.foldl Scalable.step p.1 := by
  induction ops generalizing p with
  | nil => rfl
  | cons op ops ih => simp [List.foldl_cons, ih, estep_fst]

lemma effTrace_fst (ops : List ScalableOp) : (effTrace ops).1 = runScalable ops := by
  simpa [effTrace, runScalable] using foldl_estep_fst ops (Scalable.init, 1, 0)

lemma effInv_estep (p : Scalable × ℚ × Nat) (op : ScalableOp) (h : EffInv p) :
    EffInv (estep p op) := by
  obtain ⟨h0, h1⟩ := h
  cases op with
  | ack =>
      constructor
      · intro _
        exact ⟨rfl, rfl⟩
      · intro hc
        exact absurd hc (by simp [estep])
  | set q =>
      by_cases hc : q > 0 ∧ q ≠ p.1.m_scale
      · constructor
        · intro hz
          exact absurd hz (by simp [estep, hc])
        · intro ho
          have hn : p.2.2 = 0 := by
            have h' : p.2.2 + 1 = 1 := by simpa [estep, hc] using ho
            omega
          obtain ⟨hpe, hsa⟩ := h0 hn
          have hq : q ≠ p.2.1 := hsa ▸ hc.2
          have e1 : (estep p (.set q)).1 = { m_scale := q, m_prevScale := p.1.m_scale } := by
            simp [estep, Scalable.SetScale, hc]
          have e2 : (estep p (.set q)).2.1 = p.2.1 := by
            simp [estep]
          constructor
          · rw [e1, e2]
            exact hsa
          · rw [e1, e2]
            exact hq
      · constructor
        · intro hz
          have hz' : p.2.2 = 0 := by simpa [estep, hc] using hz
          simpa [estep, hc, Scalable.SetScale] using h0 hz'
        · intro ho
          have ho' : p.2.2 = 1 := by simpa [estep, hc] using ho
          simpa [estep, hc, Scalable.SetScale] using h1 ho'

lemma effInv_foldl (ops : List ScalableOp) (p : Scalable × ℚ × Nat) (h : EffInv p) :
    EffInv (ops.foldl estep p) := by
  induction ops generalizing p with
  | nil => exact h
  | cons op ops ih => exact ih _ (effInv_estep p op h)

lemma effInv_effTrace (ops : List ScalableOp) : EffInv (effTrace ops) := by
  refine effInv_foldl ops _ ?_
  constructor
  · intro _
    exact ⟨rfl, rfl⟩
  · intro hc
    exact absurd hc (by simp)

lemma hasScaleChanged_iff (s : Scalable) :
    s.HasScaleChanged = true ↔ s.m_scale ≠ s.m_prevScale := by
  simp [Scalable.HasScaleChanged]

lemma readLineScale_pos (g : ℚ) (entry : Bool) (line : String) (h : 0 < g) :
    0 < readLineScale g entry line := by
  unfold readLineScale
  cases entry with
  | false => simpa using h
  | true =>
      cases hs : scanUserScale line.data with
      | none => simpa [hs] using h
      | some v =>
          by_cases hv : v > 0 ∧ v ≤ 10
          · simp [hs, hv]
          · simpa [hs, hv] using h

lemma gstep_pos (st : GlobalState) (op : UserScaleOp) (h : 0 < st.g_userScale) :
    0 < (gstep st op).g_userScale := by
  cases op with
  | setUser c q =>
      by_cases hq : q > 0
      · simp [gstep, SetUserScale, hq]
      · simpa [gstep, SetUserScale, hq] using h
  | readLine e l =>
      simpa [gstep, SettingsHandler_ReadLine] using readLineScale_pos st.g_userScale e l h

lemma scan_1_250 : scanUserScale "UserScale=1.250".data = some (5/4) := by
  simp [scanUserScale, matchLit, floatTok, parseSign, parseExpPart, digitsToNat, digToNat,
    pow10, isSpace, List.takeWhile, List.dropWhile]
  norm_num

lemma scan_ws_2_5 : scanUserScale "UserScale= 2.5".data = some (5/2) := by
  simp [scanUserScale, matchLit, floatTok, parseSign, parseExpPart, digitsToNat, digToNat,
    pow10, isSpace, List.takeWhile, List.dropWhile]
  norm_num

lemma fmt3_5_4 : fmt3 (5/4) = "1.250" := by
  have h : round ((5/4 : ℚ) * 1000) = 1250 := by norm_num [round_eq]
  simp [fmt3, h, pad3]
  rfl

lemma register_of_registered (hasCtx : Bool) (st : GlobalState)
    (h : st.g_settingsHandlerRegistered = true) :
    RegisterSettingsHandler hasCtx st = st := by
  simp [RegisterSettingsHandler, h]

/-- C1: counterexample — from a fresh `Scalable`, `SetScale(2)` then
`SetScale(1)` returns the scale to the initial (never-acknowledged) value `1`,
yet `HasScaleChanged()` is true, because `m_prevScale` records the scale
before the most recent effective `SetScale` (here `2`), not the value at the
most recent acknowledgement.  The claimed equivalence fails on exactly the
"change away and back" sequences it singles out. -/
theorem hasScaleChanged_vs_lastAck_counterexample :
    (runScalable [ScalableOp.set 2, ScalableOp.set 1]).HasScaleChanged = true ∧
    (runScalable [ScalableOp.set 2, ScalableOp.set 1]).GetScale
      = lastAckScale [ScalableOp.set 2, ScalableOp.set 1] := by
  constructor
  · norm_num [runScalable, Scalable.step, Scalable.SetScale, Scalable.init,
      Scalable.HasScaleChanged]
  · norm_num [runScalable, Scalable.step, Scalable.SetScale, Scalable.init,
      Scalable.GetScale, lastAckScale, effTrace, estep]

/-- C1 (amended): provided at most one effective `SetScale` occurred since the
most recent `AcknowledgeScaleChange` (or since construction), `HasScaleChanged()`
returns true exactly when the currently stored scale differs from the value the
scale had at the most recent acknowledgement (initially `1.0`).  Without that
restriction the equivalence fails (see the counterexample): `m_prevScale` holds
the scale before the most recent effective `SetScale`, not the
last-acknowledged value. -/
theorem hasScaleChanged_lastAck_of_atMostOne (ops : List ScalableOp)
    (h : effSetsSinceAck ops ≤ 1) :
    (runScalable ops).HasScaleChanged = true ↔
      (runScalable ops).GetScale ≠ lastAckScale ops := by
  obtain ⟨h0, h1⟩ := effInv_effTrace ops
  have hfst := effTrace_fst ops
  rw [hasScaleChanged_iff]
  simp only [Scalable.GetScale, lastAckScale]
  rw [← hfst]
  rcases Nat.le_one_iff_eq_zero_or_eq_one.mp h with hz | ho
  · obtain ⟨hpe, hsa⟩ := h0 hz
    constructor
    · intro hne
      exact absurd hpe.symm hne
    · intro hra
      exact absurd hsa hra
  · obtain ⟨hpe, hns⟩ := h1 ho
    constructor
    · intro _
      exact hns
    · intro _
      rw [hpe]
      exact hns

/-- C1 (amended) witness: the single-effective-set trace `[SetScale 2]`
satisfies the hypothesis and the equivalence. -/
theorem hasScaleChanged_lastAck_of_atMostOne_witness :
    effSetsSinceAck [ScalableOp.set 2] ≤ 1 ∧
    ((runScalable [ScalableOp.set 2]).HasScaleChanged = true ↔
      (runScalable [ScalableOp.set 2]).GetScale ≠ lastAckScale [ScalableOp.set 2]) := by
  have h : effSetsSinceAck [ScalableOp.set 2] ≤ 1 := by
    norm_num [effSetsSinceAck, effTrace, estep, Scalable.init]
  exact ⟨h, hasScaleChanged_lastAck_of_atMostOne [ScalableOp.set 2] h⟩

/-- C2: round-trip of the persistence callbacks — the write-all callback at
user scale `1.25` emits exactly `[ImGuiScaling][Data]\nUserScale=1.250\n\n`
(trailing blank line included), and the read-line callback with a valid entry
token on `UserScale=1.250` sets the global user scale to `1.25`, whatever its
prior value. -/
theorem persistence_roundTrip (g : ℚ) :
    SettingsHandler_WriteAll "ImGuiScaling" (5/4)
      = "[ImGuiScaling][Data]\nUserScale=1.250\n\n" ∧
    readLineScale g true "UserScale=1.250" = 5/4 := by
  constructor
  · rw [SettingsHandler_WriteAll, fmt3_5_4]
    rfl
  · rw [readLineScale, scan_1_250]
    norm_num

/-- C3: counterexample — the line `UserScale= 2.5` does not match "`UserScale=`
immediately followed by a parseable floating-point number" (the `=` is
followed by a space), so the claim demands it be ignored; but `sscanf`'s `%f`
skips leading whitespace, and the code sets the global user scale to `2.5`. -/
theorem readLine_immediate_pattern_counterexample :
    readLineScale 1 true "UserScale= 2.5"
      ≠ applyParse 1 (specLineParse "UserScale= 2.5".data) := by
  have h1 : readLineScale 1 true "UserScale= 2.5" = 5/2 := by
    rw [readLineScale, scan_ws_2_5]
    norm_num
  have h2 : specLineParse "UserScale= 2.5".data = none := rfl
  rw [h1, h2]
  norm_num [applyParse]

/-- C3 (amended): with a valid entry token, the global user scale is
overwritten with the parsed value if and only if the line matches
`UserScale=`, followed by optional whitespace (which `sscanf`'s `%f` conversion
skips), followed by a parseable floating-point number whose value lies in
`(0, 10]`; every other line leaves the global user scale unchanged, with no
error signaled. -/
theorem readLine_pattern_ws_spec (g : ℚ) (line : String) :
    readLineScale g true line = applyParse g (specLineParseWs line.data) := by
  have hws : specLineParseWs line.data = scanUserScale line.data := rfl
  rw [hws, readLineScale]
  cases hs : scanUserScale line.data with
  | none => simp [hs, applyParse]
  | some v => simp [hs, applyParse]

/-- C4: `SetScale(newScale)` with `newScale` positive and different from the
stored scale records the old scale as previous, stores the new scale, and
fires the scale-changed hook exactly once; with `newScale` non-positive or
equal to the stored scale it leaves the state unchanged and never fires the
hook. -/
theorem setScale_spec (s : Scalable) (q : ℚ) :
    (q > 0 → q ≠ s.m_scale →
      s.SetScale q = ({ m_scale := q, m_prevScale := s.m_scale }, 1)) ∧
    (q ≤ 0 ∨ q = s.m_scale → s.SetScale q = (s, 0)) := by
  constructor
  · intro h1 h2
    simp [Scalable.SetScale, h1, h2]
  · intro h
    have hns : ¬(q > 0 ∧ q ≠ s.m_scale) := by
      rcases h with h | h
      · exact fun hc => absurd hc.1 (not_lt.mpr h)
      · exact fun hc => hc.2 h
    simp [Scalable.SetScale, hns]

/-- C4 witness: on a fresh instance, `SetScale 2` applies the change and fires
the hook once; `SetScale 0` is a no-op; repeating `SetScale 2` is a no-op
(idempotence). -/
theorem setScale_spec_witness :
    Scalable.init.SetScale 2 = ({ m_scale := 2, m_prevScale := 1 }, 1) ∧
    Scalable.init.SetScale 0 = (Scalable.init, 0) ∧
    (Scalable.init.SetScale 2).1.SetScale 2 = ((Scalable.init.SetScale 2).1, 0) := by
  have e : (Scalable.init.SetScale 2).1 = { m_scale := 2, m_prevScale := 1 } := by
    norm_num [Scalable.SetScale, Scalable.init]
  refine ⟨?_, ?_, ?_⟩
  · have h := (setScale_spec Scalable.init 2).1 (by norm_num)
      (by norm_num [Scalable.init])
    simpa [Scalable.init] using h
  · exact (setScale_spec Scalable.init 0).2 (Or.inl (by norm_num))
  · exact (setScale_spec (Scalable.init.SetScale 2).1 2).2 (Or.inr (by rw [e]))

/-- C5: the global user scale starts at `1.0`; `SetUserScale` with a positive
value stores it (so `GetUserScale` returns it) and marks the settings store
dirty exactly when an active context exists; with a non-positive value the
whole state is left unchanged and nothing is marked dirty. -/
theorem setUserScale_spec (hasCtx : Bool) (q : ℚ) (st : GlobalState) :
    GetUserScale GlobalState.init = 1 ∧
    (q > 0 →
      GetUserScale (SetUserScale hasCtx q st) = q ∧
      (hasCtx = true → (SetUserScale hasCtx q st).iniSettingsDirty = true) ∧
      (hasCtx = false → (SetUserScale hasCtx q st).iniSettingsDirty = st.iniSettingsDirty)) ∧
    (q ≤ 0 → SetUserScale hasCtx q st = st) := by
  refine ⟨rfl, ?_, ?_⟩
  · intro hq
    refine ⟨by simp [GetUserScale, SetUserScale, hq], ?_, ?_⟩
    · intro hctx
      simp [SetUserScale, hq, hctx]
    · intro hctx
      simp [SetUserScale, hq, hctx]
  · intro hq
    simp [SetUserScale, not_lt.mpr hq]

/-- C5 witness: from process start, `SetUserScale true 1.5` yields user scale
`1.5` and a dirty settings store; a following `SetUserScale true (-1)` and
`SetUserScale true 0` change nothing. -/
theorem setUserScale_spec_witness :
    GetUserScale (SetUserScale true (3/2) GlobalState.init) = 3/2 ∧
    (SetUserScale true (3/2) GlobalState.init).iniSettingsDirty = true ∧
    SetUserScale true (-1) (SetUserScale true (3/2) GlobalState.init)
      = SetUserScale true (3/2) GlobalState.init ∧
    SetUserScale true 0 (SetUserScale true (3/2) GlobalState.init)
      = SetUserScale true (3/2) GlobalState.init := by
  refine ⟨((setUserScale_spec true (3/2) GlobalState.init).2.1 (by norm_num)).1,
    ((setUserScale_spec true (3/2) GlobalState.init).2.1 (by norm_num)).2.1 rfl,
    (setUserScale_spec true (-1) (SetUserScale true (3/2) GlobalState.init)).2.2 (by norm_num),
    (setUserScale_spec true 0 (SetUserScale true (3/2) GlobalState.init)).2.2 (by norm_num)⟩

/-- C6: `RegisterSettingsHandler` is idempotent and context-guarded — a no-op
when the registration flag is set; a no-op (flag left false) when no context
exists; otherwise it appends exactly the one `ImGuiScaling` handler record and
sets the flag, so a second call in succession installs nothing further. -/
theorem registerSettingsHandler_spec (hasCtx : Bool) (st : GlobalState) :
    (st.g_settingsHandlerRegistered = true → RegisterSettingsHandler hasCtx st = st) ∧
    (hasCtx = false → RegisterSettingsHandler hasCtx st = st) ∧
    (hasCtx = false → st.g_settingsHandlerRegistered = false →
      (RegisterSettingsHandler hasCtx st).g_settingsHandlerRegistered = false) ∧
    (hasCtx = true → st.g_settingsHandlerRegistered = false →
      (RegisterSettingsHandler hasCtx st).settingsHandlers
        = st.settingsHandlers ++ [scalingHandler] ∧
      (RegisterSettingsHandler hasCtx st).g_settingsHandlerRegistered = true ∧
      (RegisterSettingsHandler hasCtx (RegisterSettingsHandler hasCtx st)).settingsHandlers
        = st.settingsHandlers ++ [scalingHandler]) := by
  refine ⟨?_, ?_, ?_, ?_⟩
  · intro hreg
    simp [RegisterSettingsHandler, hreg]
  · intro hctx
    by_cases hreg : st.g_settingsHandlerRegistered <;>
      simp [RegisterSettingsHandler, hreg, hctx]
  · intro hctx hreg
    simp [RegisterSettingsHandler, hreg, hctx]
  · intro hctx hreg
    refine ⟨by simp [RegisterSettingsHandler, hreg, hctx], ?_, ?_⟩
    · simp [RegisterSettingsHandler, hreg, hctx]
    · have h1 : (RegisterSettingsHandler hasCtx st).g_settingsHandlerRegistered = true := by
        simp [RegisterSettingsHandler, hreg, hctx]
      rw [register_of_registered hasCtx _ h1]
      simp [RegisterSettingsHandler, hreg, hctx]

/-- C6 witness: from process start with an active context, two successive
registrations install exactly one handler and set the flag; with no context
nothing happens. -/
theorem registerSettingsHandler_spec_witness :
    (RegisterSettingsHandler true (RegisterSettingsHandler true GlobalState.init)).settingsHandlers
      = [scalingHandler] ∧
    (RegisterSettingsHandler true GlobalState.init).g_settingsHandlerRegistered = true ∧
    RegisterSettingsHandler false GlobalState.init = GlobalState.init := by
  have h := (registerSettingsHandler_spec true GlobalState.init).2.2.2 rfl rfl
  exact ⟨by simpa [GlobalState.init] using h.2.2, h.2.1,
    (registerSettingsHandler_spec false GlobalState.init).2.1 rfl⟩

/-- C7: the `Scalable` state machine — a fresh instance has scale `1.0` and no
pending change; an effective `SetScale 2` yields scale `2.0` with a pending
change; `AcknowledgeScaleChange` clears the pending change while the scale
stays `2.0`. -/
theorem scalable_stateMachine :
    Scalable.init.GetScale = 1 ∧ Scalable.init.HasScaleChanged = false ∧
    (Scalable.init.SetScale 2).1.GetScale = 2 ∧
    (Scalable.init.SetScale 2).1.HasScaleChanged = true ∧
    (Scalable.init.SetScale 2).1.AcknowledgeScaleChange.HasScaleChanged = false ∧
    (Scalable.init.SetScale 2).1.AcknowledgeScaleChange.GetScale = 2 := by
  norm_num [Scalable.init, Scalable.SetScale, Scalable.GetScale, Scalable.HasScaleChanged,
    Scalable.AcknowledgeScaleChange]

/-- C8: the open-entry callback returns a valid token exactly for the entry
name `Data`, and the read-line callback with an absent token never mutates the
global user scale, whatever the line says. -/
theorem readOpen_readLine_token_spec (name : String) (g : ℚ) (line : String) :
    (SettingsHandler_ReadOpen name = true ↔ name = "Data") ∧
    readLineScale g false line = g := by
  constructor
  · simp [SettingsHandler_ReadOpen]
  · rfl

/-- C8 witness: `Data` opens a valid token, `Other` does not, and a line that
would otherwise be accepted leaves the scale unchanged under an absent
token. -/
theorem readOpen_readLine_token_spec_witness :
    SettingsHandler_ReadOpen "Data" = true ∧
    SettingsHandler_ReadOpen "Other" = false ∧
    readLineScale 1 false "UserScale=2.500" = 1 := by
  refine ⟨(readOpen_readLine_token_spec "Data" 1 "").1.mpr rfl, ?_,
    (readOpen_readLine_token_spec "Other" 1 "UserScale=2.500").2⟩
  cases hb : SettingsHandler_ReadOpen "Other" with
  | false => rfl
  | true =>
      have hOther : "Other" = "Data" := (readOpen_readLine_token_spec "Other" 1 "").1.mp hb
      exact absurd hOther (by decide)

/-- C9: `ScaleConfig`'s effective scale is the product of its two factors —
defaults are `(1, 1)` with effective scale `1`; `Create` stores both fields
verbatim with effective scale `dpi * user`; `FromEffective` fixes
`dpiScale = 1` and reproduces the given effective scale. -/
theorem scaleConfig_spec :
    (ScaleConfig.defaultConfig.dpiScale = 1 ∧ ScaleConfig.defaultConfig.userScale = 1 ∧
      ScaleConfig.defaultConfig.GetEffectiveScale = 1) ∧
    (∀ dpi user : ℚ, 0 < dpi → 0 < user →
      (ScaleConfig.Create dpi user).dpiScale = dpi ∧
      (ScaleConfig.Create dpi user).userScale = user ∧
      (ScaleConfig.Create dpi user).GetEffectiveScale = dpi * user) ∧
    (∀ effective : ℚ, 0 < effective →
      (ScaleConfig.FromEffective effective).dpiScale = 1 ∧
      (ScaleConfig.FromEffective effective).GetEffectiveScale = effective) := by
  refine ⟨⟨rfl, rfl, by norm_num [ScaleConfig.defaultConfig, ScaleConfig.GetEffectiveScale]⟩,
    ?_, ?_⟩
  · intro dpi user _ _
    exact ⟨rfl, rfl, rfl⟩
  · intro effective _
    exact ⟨rfl, by simp [ScaleConfig.FromEffective, ScaleConfig.GetEffectiveScale]⟩

/-- C9 witness: concrete positive instances of the three construction modes. -/
theorem scaleConfig_spec_witness :
    (ScaleConfig.Create 2 3).GetEffectiveScale = 6 ∧
    (ScaleConfig.FromEffective (5/2)).GetEffectiveScale = 5/2 := by
  have h1 := (scaleConfig_spec.2.1 2 3 (by norm_num) (by norm_num)).2.2
  have h2 := (scaleConfig_spec.2.2 (5/2) (by norm_num)).2
  exact ⟨by rw [h1]; norm_num, h2⟩

/-- C10: implicit invariant — the global user scale is strictly positive after
any sequence of `SetUserScale` calls and read-line callback invocations with
arbitrary inputs, starting from its initial value `1.0`. -/
theorem userScale_pos_invariant (ops : List UserScaleOp) :
    0 < GetUserScale (runGlobal ops) := by
  have hgen : ∀ st : GlobalState, 0 < st.g_userScale →
      0 < (ops.foldl gstep st).g_userScale := by
    induction ops with
    | nil => exact fun st h => h
    | cons op ops ih => exact fun st h => ih _ (gstep_pos st op h)
  simpa [GetUserScale, runGlobal] using hgen GlobalState.init (by norm_num [GlobalState.init])

end ImGuiScaling
